import Mathlib

/-!
Shallow embedding of the host-liveness subsystem of wol-web-extended
(Go sources under apps/server), together with theorems settling the
spec claims about it.

Strings are modelled as Lean `String`s; the character-level Go string
operations (strings.TrimSpace, strings.Split, strings.ReplaceAll with
single-character separators, strings.ToLower) are embedded as functions
on `List Char`.  Go byte values are `Nat`s below 256, Go time values are
`Nat` instants, and Go channels are explicit buffer states.  Fallible Go
functions returning `(T, error)` become `Except String T`; the pair
convention of `github.com/j-keck/arping` (which can in principle return
both values independently) is kept as `Option T × Option String` where
the claim depends on that distinction.
-/

/-! ## Character and string helpers (Go strings package) -/

/-- Whitespace recognised by Go strings.TrimSpace, restricted to the ASCII
range (the sources only ever deal with ASCII MAC/interface strings). -/
def goIsSpace (c : Char) : Bool :=
  c = ' ' || c = '\t' || c = '\n' || c = '\r' || c = Char.ofNat 11 || c = Char.ofNat 12

/-- Go strings.TrimSpace: drop leading and trailing whitespace. -/
def goTrimSpace (s : List Char) : List Char :=
  ((s.dropWhile goIsSpace).reverse.dropWhile goIsSpace).reverse

/-- Go strings.Split with a single-character separator.  Split("", sep)
is [""] in Go, hence the base case. -/
def splitGo (sep : Char) : List Char → List (List Char)
  | [] => [[]]
  | c :: rest =>
    if c = sep then
      [] :: splitGo sep rest
    else
      match splitGo sep rest with
      | [] => [[c]]
      | g :: gs => (c :: g) :: gs

/-- Go strings.ToLower on a character list (ASCII). -/
def toLowerL (s : List Char) : List Char :=
  s.map Char.toLower

/-- Decides whether needle is a leading segment of hay. -/
def isPreL : List Char → List Char → Bool
  | [], _ => true
  | _ :: _, [] => false
  | a :: as, b :: bs => a = b && isPreL as bs

/-- Go strings.Contains: needle occurs somewhere in hay. -/
def containsSubL (hay needle : List Char) : Bool :=
  match hay with
  | [] => isPreL needle []
  | _ :: t => isPreL needle hay || containsSubL t needle

deriving instance DecidableEq for Except

/-! ## AddressResolver: magic packet construction (network.go createMagicPacket) -/

/-- Hex-digit decoding exactly as the character-range tests inside Go
createMagicPacket perform it. -/
def hexDigitVal (c : Char) : Option Nat :=
  if '0' ≤ c ∧ c ≤ '9' then some (c.toNat - '0'.toNat)
  else if 'a' ≤ c ∧ c ≤ 'f' then some (c.toNat - 'a'.toNat + 10)
  else if 'A' ≤ c ∧ c ≤ 'F' then some (c.toNat - 'A'.toNat + 10)
  else none

/-- createMagicPacket strips only colons and hyphens from its input. -/
def stripMacSeparators (s : List Char) : List Char :=
  s.filter fun c => ¬(c = ':' ∨ c = '-')

/-- The Go double loop converting the 12 hex characters into 6 bytes:
byteVal = byteVal*16 + digit over each pair of characters. -/
def decodePairs : List Char → Option (List Nat)
  | [] => some []
  | [_] => none
  | c0 :: c1 :: rest =>
    match hexDigitVal c0, hexDigitVal c1, decodePairs rest with
    | some d0, some d1, some bs => some ((d0 * 16 + d1) :: bs)
    | _, _, _ => none

/-- network.go createMagicPacket: strip ':' and '-', require 12 characters,
hex-decode pairwise, then emit 6 bytes 0xFF followed by the 6 MAC bytes
repeated 16 times (the Go copy loop filling packet[6+i*6 : 6+(i+1)*6]). -/
def createMagicPacket (mac : String) : Except String (List Nat) :=
  let m := stripMacSeparators mac.data
  if m.length ≠ 12 then .error "invalid MAC address format"
  else
    match decodePairs m with
    | none => .error "invalid character in MAC address"
    | some macBytes => .ok (List.replicate 6 255 ++ (List.replicate 16 macBytes).flatten)

/-! ## AddressResolver: MAC validation and normalization (schema.go) -/

def ErrCodeMissingField : String := "ERR_MISSING_FIELD"
def ErrCodeInvalidMAC : String := "ERR_INVALID_MAC"

/-- error_codes.go ValidationError. -/
structure ValidationError where
  code : String
  message : String
deriving DecidableEq

/-- sanitizeMACAddress removes ':', '-' and ' ' before validating. -/
def removeMacSeps (s : List Char) : List Char :=
  s.filter fun c => ¬(c = ':' ∨ c = '-' ∨ c = ' ')

/-- A character accepted by the regex class [0-9a-fA-F]. -/
def isHexChar (c : Char) : Bool :=
  (hexDigitVal c).isSome

/-- schema.go sanitizeMACAddress: TrimSpace, reject empty, strip ':' '-' ' ',
require exactly 12 hex characters, reject the broadcast MAC and the
all-zero MAC. -/
def sanitizeMACAddress (s : String) : Option ValidationError :=
  let mac := goTrimSpace s.data
  if mac = [] then
    some ⟨ErrCodeMissingField, "MAC address cannot be empty"⟩
  else
    let cleanMAC := removeMacSeps mac
    if ¬(cleanMAC.length = 12 ∧ cleanMAC.all isHexChar) then
      some ⟨ErrCodeInvalidMAC, "invalid MAC address format"⟩
    else if toLowerL cleanMAC = "ffffffffffff".data then
      some ⟨ErrCodeInvalidMAC, "broadcast MAC address is not allowed"⟩
    else if cleanMAC = "000000000000".data then
      some ⟨ErrCodeInvalidMAC, "all-zero MAC address is not allowed"⟩
    else
      none

/-- The Go loop taking mac[2i : 2i+2] slices and strings.Join-ing them
with ":" (always invoked on a 12-character list). -/
def colonJoinPairs : List Char → List Char
  | a :: b :: rest =>
    a :: b :: (if rest.isEmpty then [] else ':' :: colonJoinPairs rest)
  | rest => rest

/-- schema.go normalizeMACAddress: strip ':' '-' ' ', lowercase; if the
result is not 12 characters long it is returned as-is, otherwise colons
are re-inserted every two characters. -/
def normalizeMACAddress (s : String) : String :=
  let m := toLowerL (removeMacSeps s.data)
  if m.length ≠ 12 then ⟨m⟩ else ⟨colonJoinPairs m⟩

/-- The validation-plus-normalization pipeline the server applies to a MAC
on host create/update (handler_health.go createHost/updateHost:
host.MAC = strings.TrimSpace(host.MAC), then sanitizeMACAddress(host.MAC),
then host.MAC = normalizeMACAddress(host.MAC)); the spec's single
normalizeMAC operation. -/
def normalizeMAC (s : String) : Except ValidationError String :=
  let mac : String := ⟨goTrimSpace s.data⟩
  match sanitizeMACAddress mac with
  | some e => .error e
  | none => .ok (normalizeMACAddress mac)

example : normalizeMAC "AA-BB-CC-DD-EE-FF" = .ok "aa:bb:cc:dd:ee:ff" := by decide
example : createMagicPacket "aa:bb:cc:dd:ee:ff" =
    .ok (List.replicate 6 255 ++ (List.replicate 16 [0xaa, 0xbb, 0xcc, 0xdd, 0xee, 0xff]).flatten) := by
  decide

/-! ## Data model: Config and Host (models.go, main.go config) -/

/-- The configuration fields the liveness subsystem reads. -/
structure Config where
  enablePerHostInterfaces : Bool
  readOnlyMode : Bool
  defaultNetworkInterface : String
deriving DecidableEq

/-- models.go Host, restricted to the fields probing and waking read. -/
structure Host where
  mac : String
  staticIP : String
  useAsFallback : Bool
  interface : String
deriving DecidableEq

/-! ## InterfaceSelector (http_helpers.go determineNetworkInterface) -/

/-- http_helpers.go Server.determineNetworkInterface. -/
def determineNetworkInterface (cfg : Config) (host : Host) : String :=
  if ¬cfg.enablePerHostInterfaces then cfg.defaultNetworkInterface
  else if cfg.readOnlyMode then cfg.defaultNetworkInterface
  else if host.interface ≠ "" then host.interface
  else ""

/-! ## ResultCache (network.go PingCache) with explicit channel states -/

/-- network.go pingResult, the value sent over a wait channel.  Its Go
zero value (received from a closed, drained channel) is
pingSuccess=false, arpSuccess=false, error=nil. -/
structure PingResultT where
  pingSuccess : Bool
  arpSuccess : Bool
  error : Option String
deriving DecidableEq

/-- The zero value of pingResult, yielded by a receive on a closed and
empty channel. -/
def pingResultZero : PingResultT := ⟨false, false, none⟩

/-- network.go PingCacheEntry; timestamps are Nat instants and the wait
channel is referenced by an identifier into the channel table. -/
structure PingCacheEntry where
  pingSuccess : Bool
  arpSuccess : Bool
  timestamp : Nat
  inProgress : Bool
  waitChan : Option Nat
deriving DecidableEq

/-- State of one buffered Go channel of pingResult (capacity 10 in
StartPing). -/
structure ChanState where
  buf : List PingResultT
  closed : Bool
deriving DecidableEq

/-- Association-list find keyed by the first component. -/
def alistFind [DecidableEq α] (l : List (α × β)) (k : α) : Option β :=
  match l with
  | [] => none
  | (k0, v) :: rest => if k0 = k then some v else alistFind rest k

/-- Association-list insert-or-replace. -/
def alistInsert [DecidableEq α] (l : List (α × β)) (k : α) (v : β) : List (α × β) :=
  match l with
  | [] => [(k, v)]
  | (k0, v0) :: rest => if k0 = k then (k, v) :: rest else (k0, v0) :: alistInsert rest k v

/-- Association-list erase. -/
def alistErase [DecidableEq α] (l : List (α × β)) (k : α) : List (α × β) :=
  match l with
  | [] => []
  | (k0, v0) :: rest => if k0 = k then rest else (k0, v0) :: alistErase rest k

/-- network.go PingCache.  All its methods run under one mutex, so every
operation is a single atomic transition on this state; the channel table
models the Go channels the entries reference, and nextChan models
allocation by make(chan pingResult, 10). -/
structure PingCache where
  cache : List (String × PingCacheEntry)
  chans : List (Nat × ChanState)
  nextChan : Nat
  ttl : Nat
deriving DecidableEq

/-- Go select-with-default send on a buffered channel: enqueue when there
is room, otherwise drop.  (Set and SetError only ever send on a channel
that is still open.) -/
def chanSendNB (cs : ChanState) (r : PingResultT) : ChanState :=
  if cs.closed then cs
  else if cs.buf.length < 10 then { cs with buf := cs.buf ++ [r] }
  else cs

/-- close(ch). -/
def chanClose (cs : ChanState) : ChanState :=
  { cs with closed := true }

/-- One receive on a channel: pop a buffered value if any; a closed and
drained channel yields the zero value; an open empty channel blocks
(none). -/
def chanRecv (cs : ChanState) : Option (PingResultT × ChanState) :=
  match cs.buf with
  | r :: rest => some (r, { cs with buf := rest })
  | [] => if cs.closed then some (pingResultZero, cs) else none

namespace PingCache

/-- network.go PingCache.Get: nil when the key is absent or when
time.Since(entry.Timestamp) > ttl; otherwise the stored entry. -/
def Get (pc : PingCache) (key : String) (now : Nat) : Option PingCacheEntry :=
  match alistFind pc.cache key with
  | none => none
  | some e => if now - e.timestamp > pc.ttl then none else some e

/-- network.go PingCache.StartPing: when an in-progress entry exists the
caller coalesces onto its channel (isFirstRequest=false); otherwise a new
buffered channel is allocated and an in-progress marker installed. -/
def StartPing (pc : PingCache) (key : String) (now : Nat) : Bool × Nat × PingCache :=
  let fresh :=
    let ch := pc.nextChan
    (true, ch,
      { pc with
        cache := alistInsert pc.cache key ⟨false, false, now, true, some ch⟩
        chans := alistInsert pc.chans ch ⟨[], false⟩
        nextChan := ch + 1 })
  match alistFind pc.cache key with
  | some e => if e.inProgress then (false, e.waitChan.getD 0, pc) else fresh
  | none => fresh

/-- network.go PingCache.Set: when an in-progress entry exists, one
non-blocking send of the result into its channel followed by close; then
the completed entry replaces whatever was stored. -/
def Set (pc : PingCache) (key : String) (pingSuccess arpSuccess : Bool) (now : Nat) :
    PingCache :=
  let pc1 :=
    match alistFind pc.cache key with
    | some e =>
      if e.inProgress then
        match e.waitChan with
        | some ch =>
          match alistFind pc.chans ch with
          | some cs =>
            { pc with
              chans := alistInsert pc.chans ch
                (chanClose (chanSendNB cs ⟨pingSuccess, arpSuccess, none⟩)) }
          | none => pc
        | none => pc
      else pc
    | none => pc
  { pc1 with cache := alistInsert pc1.cache key ⟨pingSuccess, arpSuccess, now, false, none⟩ }

/-- network.go PingCache.SetError: when an in-progress entry exists, one
non-blocking send of the error result followed by close; then the key is
deleted from the cache. -/
def SetError (pc : PingCache) (key : String) (err : String) : PingCache :=
  let pc1 :=
    match alistFind pc.cache key with
    | some e =>
      if e.inProgress then
        match e.waitChan with
        | some ch =>
          match alistFind pc.chans ch with
          | some cs =>
            { pc with
              chans := alistInsert pc.chans ch
                (chanClose (chanSendNB cs ⟨false, false, some err⟩)) }
          | none => pc
        | none => pc
      else pc
    | none => pc
  { pc1 with cache := alistErase pc1.cache key }

/-- A coalesced caller's receive on its wait channel (part_008 handlePing,
result := <-waitChan). -/
def recv (pc : PingCache) (ch : Nat) : Option (PingResultT × PingCache) :=
  match alistFind pc.chans ch with
  | some cs =>
    match chanRecv cs with
    | some (r, cs1) => some (r, { pc with chans := alistInsert pc.chans ch cs1 })
    | none => none
  | none => none

end PingCache

/-- An empty cache with the given TTL (NewPingCache). -/
def emptyPingCache (ttl : Nat) : PingCache := ⟨[], [], 0, ttl⟩

/-! ## ProbeEngine (part_008 Server.handlePing, probe section) -/

/-- The network primitives the probe section of handlePing invokes, in
the order it invokes them. -/
inductive ProbeCall
  | lookupMAC
  | flushARP (ip : String)
  | arpPingIP (ip : String)
  | scanMAC
deriving DecidableEq

/-- Environment abstracting the OS-facing primitives: GetIPFromMAC (indexed
by call number, since the ARP table changes between the two lookups),
ARPPingIP (returning the Go pair hardware-address/error), and ARPPingMAC
(the full-subnet scan, returning the found IP and the ICMP ping outcome,
or an error when the host was not found). -/
structure ProbeEnv where
  getIPFromMAC : Nat → Except String String
  arpPing : String → Option String × Option String
  scan : Except String (String × Bool)

/-- The success test handlePing applies to an ARPPingIP result:
err == nil && hwAddr != nil. -/
def arpPingOk (r : Option String × Option String) : Bool :=
  r.2.isNone && r.1.isSome

/-- part_008 handlePing, probe section (after cache lookup and
coalescing): static-IP direct mode when staticIP is set and
useAsFallback is false; otherwise passive ARP-table lookup with flush and
re-lookup on a hit; active verification of a passively resolved IP (with a
flush of the stale entry on failure); full-subnet scan when the passive
lookup missed; static-IP fallback after a failed scan when useAsFallback
is set.  Returns the (pingSuccess, arpSuccess) pair stored into the cache
and returned to the client, together with the primitives called. -/
def probeHost (env : ProbeEnv) (host : Host) : (Bool × Bool) × List ProbeCall :=
  if host.staticIP ≠ "" ∧ ¬host.useAsFallback then
    let r := env.arpPing host.staticIP
    if arpPingOk r then ((true, true), [.arpPingIP host.staticIP])
    else ((false, false), [.arpPingIP host.staticIP])
  else
    let first := env.getIPFromMAC 0
    let afterFlush : Except String String × List ProbeCall :=
      match first with
      | .ok ip =>
        if ip ≠ "" then (env.getIPFromMAC 1, [.lookupMAC, .flushARP ip, .lookupMAC])
        else (first, [.lookupMAC])
      | .error _ => (first, [.lookupMAC])
    match afterFlush with
    | (.ok hostIP, calls0) =>
      let r := env.arpPing hostIP
      if arpPingOk r then ((true, true), calls0 ++ [.arpPingIP hostIP])
      else ((false, false), calls0 ++ [.arpPingIP hostIP, .flushARP hostIP])
    | (.error _, calls0) =>
      match env.scan with
      | .ok (_, pingOk) => ((pingOk, true), calls0 ++ [.scanMAC])
      | .error _ =>
        if host.staticIP ≠ "" ∧ host.useAsFallback then
          let r := env.arpPing host.staticIP
          if arpPingOk r then ((true, true), calls0 ++ [.scanMAC, .arpPingIP host.staticIP])
          else ((false, false), calls0 ++ [.scanMAC, .arpPingIP host.staticIP])
        else ((false, false), calls0 ++ [.scanMAC])

/-! ## WakeBroadcaster (network.go SendWakeOnLanWithInterface) -/

/-- Outcome of processing one named interface inside the explicit-mode
loop: interface lookup failure, address enumeration failure, no IPv4
address, a successful send, or a send failure. -/
inductive IfaceOutcome
  | lookupFail (msg : String)
  | addrsFail (msg : String)
  | noIPv4
  | sendOk (localIP : String)
  | sendFail (msg : String)
deriving DecidableEq

/-- Environment giving each interface name its outcome. -/
def WakeEnv : Type := String → IfaceOutcome

/-- Whether the outcome counts into successCount. -/
def isSendOk : IfaceOutcome → Bool
  | .sendOk _ => true
  | _ => false

/-- The error string appended to the errors slice for a failed interface
(none for a successful send), following the fmt.Sprintf formats used in
SendWakeOnLanWithInterface. -/
def wakeFailureMsg (name : String) : IfaceOutcome → Option String
  | .lookupFail m => some ("interface " ++ name ++ " not found: " ++ m)
  | .addrsFail m => some ("failed to get addresses for interface " ++ name ++ ": " ++ m)
  | .noIPv4 => some ("no IPv4 address found on interface " ++ name)
  | .sendOk _ => none
  | .sendFail m => some ("failed to send via interface " ++ name ++ ": " ++ m)

/-- The explicit-mode loop of SendWakeOnLanWithInterface: each
comma-separated group is trimmed, empty names are skipped, and every
remaining interface is attempted — the loop never breaks, neither on
success nor on failure — accumulating the error strings in order and
counting successful sends. -/
def wolLoop (env : WakeEnv) : List (List Char) → List String × Nat
  | [] => ([], 0)
  | g :: rest =>
    let name := goTrimSpace g
    if name = [] then wolLoop env rest
    else
      let res := wolLoop env rest
      match wakeFailureMsg ⟨name⟩ (env ⟨name⟩) with
      | some m => (m :: res.1, res.2)
      | none => (res.1, res.2 + 1)

/-- network.go SendWakeOnLanWithInterface: empty interface string uses the
default all-interfaces path (abstracted as defaultResult); otherwise the
explicit loop runs over the comma-split list, success is declared iff
successCount > 0, and otherwise the aggregate error joins every
per-interface failure (or reports that no valid interface was named). -/
def SendWakeOnLanWithInterface (env : WakeEnv) (defaultResult : Except String Unit)
    (networkInterfaces : String) : Except String Unit :=
  if networkInterfaces = "" then defaultResult
  else
    let res := wolLoop env (splitGo ',' networkInterfaces.data)
    if res.2 > 0 then .ok ()
    else if res.1 ≠ [] then
      .error ("all interfaces failed: " ++ String.intercalate "; " res.1)
    else .error "no valid interfaces found"

/-- The non-blank interface names SendWakeOnLanWithInterface iterates
over, in order. -/
def parsedIfaceNames (s : String) : List (List Char) :=
  ((splitGo ',' s.data).map goTrimSpace).filter fun n => n ≠ []

/-! ## ARPPingIP (arping_helpers_linux.go) -/

/-- Environment for ARPPingIP: the two arping-library entry points it
calls, each returning the Go pair (hardware address, error) with both
components independently optional. -/
structure ArpEnv where
  pingOverIface : String → String → Option String × Option String
  pingDefault : String → Option String × Option String

/-- Result of running ARPPingIP under the Go semantics: either the
function returns (with its hardware-address/error pair collapsed into an
Except), or it panics on a nil-error dereference. -/
inductive ArpRunResult
  | panicked
  | returned (r : Except String (Option String))
deriving DecidableEq

/-- strings.Contains(err.Error(), "operation not permitted"). -/
def permDenied (e : String) : Bool :=
  containsSubL e.data "operation not permitted".data

/-- The per-interface loop of ARPPingIP: trim each name, skip blanks; on
err == nil && hwAddr != nil return the address; otherwise the code calls
err.Error() — a panic when err is nil — and returns the permission error
when the message matches, else tries the next interface.  none means the
loop fell through. -/
def arpTryIfaces (env : ArpEnv) (ip : String) : List (List Char) → Option ArpRunResult
  | [] => none
  | g :: rest =>
    let name := goTrimSpace g
    if name = [] then arpTryIfaces env ip rest
    else
      let r := env.pingOverIface ip ⟨name⟩
      if r.2.isNone ∧ r.1.isSome then some (.returned (.ok r.1))
      else
        match r.2 with
        | none => some .panicked
        | some e =>
          if permDenied e then
            some (.returned (.error "ARP ping requires elevated permissions (CAP_NET_RAW)"))
          else arpTryIfaces env ip rest

/-- arping_helpers_linux.go ARPPingIP: when an interface list is given,
try each named interface; if the loop falls through (or no interface was
named), call arping.Ping directly, checking its error for nil before
inspecting it. -/
def ARPPingIP (env : ArpEnv) (ip : String) (ifaceName : String) : ArpRunResult :=
  let loopRes :=
    if ifaceName = "" then none
    else arpTryIfaces env ip (splitGo ',' ifaceName.data)
  match loopRes with
  | some r => r
  | none =>
    let r := env.pingDefault ip
    match r.2 with
    | some e =>
      if permDenied e then
        .returned (.error "ARP ping requires elevated permissions (CAP_NET_RAW)")
      else .returned (.error ("ARP ping failed: " ++ e))
    | none => .returned (.ok r.1)

/-! ## Helper lemmas -/

theorem alistFind_insert_self [DecidableEq α] (l : List (α × β)) (k : α) (v : β) :
    alistFind (alistInsert l k v) k = some v := by
  induction l with
  | nil => simp [alistInsert, alistFind]
  | cons hd tl ih =>
    obtain ⟨k0, v0⟩ := hd
    by_cases h : k0 = k <;> simp [alistInsert, alistFind, h, ih]

theorem PingCache_Set_cache (pc : PingCache) (key : String) (p a : Bool) (t : Nat) :
    (PingCache.Set pc key p a t).cache =
      alistInsert pc.cache key ⟨p, a, t, false, none⟩ ∧
    (PingCache.Set pc key p a t).ttl = pc.ttl := by
  constructor <;>
  · unfold PingCache.Set
    repeat' split
    all_goals rfl

theorem PingCache_get_set_self (pc : PingCache) (key : String) (p a : Bool) (t : Nat) :
    PingCache.Get (PingCache.Set pc key p a t) key t = some ⟨p, a, t, false, none⟩ := by
  obtain ⟨hc, ht⟩ := PingCache_Set_cache pc key p a t
  unfold PingCache.Get
  rw [hc, ht, alistFind_insert_self]
  simp

/-! ## C6: interface selection policy -/

/-- C6: determineNetworkInterface returns, first matching rule winning:
the global default interface list when per-host interface selection is
disabled; the global default when readOnlyMode is true; otherwise the
host's own interface list when non-empty; otherwise the empty list
(meaning all interfaces). -/
theorem determineNetworkInterface_policy (cfg : Config) (host : Host) :
    (cfg.enablePerHostInterfaces = false →
      determineNetworkInterface cfg host = cfg.defaultNetworkInterface)
    ∧ (cfg.enablePerHostInterfaces = true → cfg.readOnlyMode = true →
      determineNetworkInterface cfg host = cfg.defaultNetworkInterface)
    ∧ (cfg.enablePerHostInterfaces = true → cfg.readOnlyMode = false →
      host.interface ≠ "" → determineNetworkInterface cfg host = host.interface)
    ∧ (cfg.enablePerHostInterfaces = true → cfg.readOnlyMode = false →
      host.interface = "" → determineNetworkInterface cfg host = "") := by
  refine ⟨fun h1 => ?_, fun h1 h2 => ?_, fun h1 h2 h3 => ?_, fun h1 h2 h3 => ?_⟩
  · simp [determineNetworkInterface, h1]
  · simp [determineNetworkInterface, h1, h2]
  · simp [determineNetworkInterface, h1, h2, h3]
  · simp [determineNetworkInterface, h1, h2, h3]

/-- Witness for C6 at the spec's matrix row (perHostEnabled=true,
readOnly=false, hostIfaces="eth0"). -/
theorem determineNetworkInterface_policy_witness :
    determineNetworkInterface ⟨true, false, "eth9"⟩ ⟨"aa:bb:cc:dd:ee:ff", "", false, "eth0"⟩ =
      "eth0" :=
  (determineNetworkInterface_policy ⟨true, false, "eth9"⟩
    ⟨"aa:bb:cc:dd:ee:ff", "", false, "eth0"⟩).2.2.1 rfl rfl (by decide)

/-! ## C10: ARPPingIP never dereferences a nil error -/

theorem arpTryIfaces_no_panic (env : ArpEnv) (ip : String)
    (hc : ∀ i a, (env.pingOverIface i a).2 = none → (env.pingOverIface i a).1.isSome = true) :
    ∀ gs : List (List Char), arpTryIfaces env ip gs ≠ some ArpRunResult.panicked := by
  intro gs
  induction gs with
  | nil => simp [arpTryIfaces]
  | cons g rest ih =>
    unfold arpTryIfaces
    by_cases hn : goTrimSpace g = []
    · simpa [hn] using ih
    · simp only [hn, if_false]
      by_cases hok : ((env.pingOverIface ip ⟨goTrimSpace g⟩).2.isNone ∧
          (env.pingOverIface ip ⟨goTrimSpace g⟩).1.isSome)
      · simp [hok]
      · simp only [hok, if_false]
        rcases herr : (env.pingOverIface ip ⟨goTrimSpace g⟩).2 with _ | e
        · exfalso
          exact hok ⟨by simp [herr], hc ip ⟨goTrimSpace g⟩ herr⟩
        · by_cases hp : permDenied e <;> simp [hp, ih]

/-- C10: under the arping library's contract (a nil error is always
accompanied by a non-nil hardware address), no execution of ARPPingIP
reaches the err.Error() call with a nil error: the function never
panics, for any IP and interface string. -/
theorem ARPPingIP_no_nil_deref (env : ArpEnv) (ip ifaceName : String)
    (hc : ∀ i a, (env.pingOverIface i a).2 = none → (env.pingOverIface i a).1.isSome = true) :
    ARPPingIP env ip ifaceName ≠ ArpRunResult.panicked := by
  unfold ARPPingIP
  by_cases h : ifaceName = ""
  · rw [if_pos h]
    rcases hd : (env.pingDefault ip).2 with _ | e
    · simp [hd]
    · by_cases hp : permDenied e <;> simp [hd, hp]
  · rw [if_neg h]
    rcases hloop : arpTryIfaces env ip (splitGo ',' ifaceName.data) with _ | r
    · rcases hd : (env.pingDefault ip).2 with _ | e
      · simp [hd]
      · by_cases hp : permDenied e <;> simp [hd, hp]
    · show r ≠ ArpRunResult.panicked
      have hne := arpTryIfaces_no_panic env ip hc (splitGo ',' ifaceName.data)
      rw [hloop] at hne
      simpa using hne

/-- Witness for C10 at a concrete environment and input. -/
theorem ARPPingIP_no_nil_deref_witness :
    ARPPingIP
      ⟨fun _ _ => (some "aa:bb:cc:dd:ee:01", none), fun _ => (some "aa:bb:cc:dd:ee:01", none)⟩
      "192.0.2.7" "eth0" ≠ ArpRunResult.panicked :=
  ARPPingIP_no_nil_deref _ "192.0.2.7" "eth0" (fun _ _ _ => rfl)

/-! ## C4: pingSuccess implies arpSuccess -/

/-- C4: every (pingSuccess, arpSuccess) pair the probe section produces
satisfies pingSuccess = true implies arpSuccess = true, and so does every
completed entry a Set of that pair writes into the result cache. -/
theorem probe_ping_implies_arp (env : ProbeEnv) (host : Host)
    (pc : PingCache) (key : String) (t : Nat) :
    ((probeHost env host).1.1 = true → (probeHost env host).1.2 = true)
    ∧ (∀ e, PingCache.Get
        (PingCache.Set pc key (probeHost env host).1.1 (probeHost env host).1.2 t) key t =
          some e → e.pingSuccess = true → e.arpSuccess = true) := by
  have hcases : (probeHost env host).1.2 = true ∨ (probeHost env host).1 = (false, false) := by
    simp only [probeHost]
    repeat' split
    all_goals simp
  have hmain : (probeHost env host).1.1 = true → (probeHost env host).1.2 = true := by
    intro hp
    rcases hcases with h | h
    · exact h
    · rw [h] at hp
      exact absurd hp (by simp)
  refine ⟨hmain, fun e he hp => ?_⟩
  rw [PingCache_get_set_self] at he
  obtain rfl := (Option.some_inj.mp he).symm
  simp only at hp ⊢
  exact hmain hp

/-- Witness for C4 at a concrete environment where the probe reports the
host online. -/
theorem probe_ping_implies_arp_witness :
    (probeHost ⟨fun _ => .error "not in table", fun _ => (some "aa:bb:cc:dd:ee:0f", none),
        .ok ("10.0.0.9", true)⟩ ⟨"aa:bb:cc:dd:ee:0f", "", false, ""⟩).1.2 = true :=
  (probe_ping_implies_arp ⟨fun _ => .error "not in table",
      fun _ => (some "aa:bb:cc:dd:ee:0f", none), .ok ("10.0.0.9", true)⟩
      ⟨"aa:bb:cc:dd:ee:0f", "", false, ""⟩ (emptyPingCache 60) "k" 0).1 (by decide)

/-! ## C3: cache get/set freshness -/

/-- C3 (amended): Get(key) misses iff the key is absent or its entry's
timestamp is older than the TTL; otherwise it returns the stored entry —
which is the completed result when the probe has completed (in
particular, a Get at the completion instant of Set(key,p,a) returns
exactly (p,a), and a Get more than ttl after completion misses), but can
also be a fresh in-flight marker installed by StartPing. -/
theorem pingCache_get_spec (pc : PingCache) (key : String) (p a : Bool) (t1 t2 : Nat) :
    (alistFind pc.cache key = none → PingCache.Get pc key t2 = none)
    ∧ (∀ e, alistFind pc.cache key = some e →
        PingCache.Get pc key t2 = if t2 - e.timestamp > pc.ttl then none else some e)
    ∧ PingCache.Get (PingCache.Set pc key p a t1) key t1 = some ⟨p, a, t1, false, none⟩
    ∧ (t2 - t1 > pc.ttl → PingCache.Get (PingCache.Set pc key p a t1) key t2 = none) := by
  refine ⟨fun hn => ?_, fun e he => ?_, PingCache_get_set_self pc key p a t1, fun hexp => ?_⟩
  · unfold PingCache.Get
    rw [hn]
  · unfold PingCache.Get
    rw [he]
  · obtain ⟨hc, ht⟩ := PingCache_Set_cache pc key p a t1
    unfold PingCache.Get
    rw [hc, ht, alistFind_insert_self]
    simp only
    rw [if_pos hexp]

/-- Witness for C3 at concrete instants 5 and 100 with ttl 60. -/
theorem pingCache_get_spec_witness :
    PingCache.Get (PingCache.Set (emptyPingCache 60) "k" true true 5) "k" 5 =
      some ⟨true, true, 5, false, none⟩
    ∧ PingCache.Get (PingCache.Set (emptyPingCache 60) "k" true true 5) "k" 100 = none :=
  ⟨(pingCache_get_spec (emptyPingCache 60) "k" true true 5 100).2.2.1,
   (pingCache_get_spec (emptyPingCache 60) "k" true true 5 100).2.2.2 (by decide)⟩

/-- C3 counterexample: immediately after StartPing installs an in-flight
marker, Get on that key returns the marker — a non-miss whose entry is
not a completed probe result (inProgress is true and no result was ever
stored), against the claim that a non-miss Get returns the completed
ProbeResult stored for the key. -/
theorem pingCache_get_inflight_cex :
    PingCache.Get ((PingCache.StartPing (emptyPingCache 60) "k" 5).2.2) "k" 5 =
      some ⟨false, false, 5, true, some 0⟩
    ∧ (⟨false, false, 5, true, some 0⟩ : PingCacheEntry).inProgress = true := by
  constructor
  · rfl
  · rfl

/-! ## C1: coalescing delivers one buffered value, not a broadcast -/

/-- C1 (code evaluated at the failing input): three concurrent probe
requests for key "k" against an empty cache.  All three observe a Get
miss, the first StartPing wins ownership, the other two coalesce onto
the same channel; the owner completes with Set(true,true), which performs
one buffered send and closes the channel.  The first waiter receives
(true,true) but the second waiter receives the closed channel's zero
value (false,false) — the callers do not all receive the identical
result, though only one probe execution (one ownership grant) occurred. -/
theorem coalesced_waiters_diverge :
    PingCache.Get (emptyPingCache 60) "k" 0 = none
    ∧ (PingCache.StartPing (emptyPingCache 60) "k" 0).1 = true
    ∧ PingCache.StartPing (PingCache.StartPing (emptyPingCache 60) "k" 0).2.2 "k" 0 =
        (false, (PingCache.StartPing (emptyPingCache 60) "k" 0).2.1,
          (PingCache.StartPing (emptyPingCache 60) "k" 0).2.2)
    ∧ (PingCache.recv
          (PingCache.Set (PingCache.StartPing (emptyPingCache 60) "k" 0).2.2 "k" true true 1)
          (PingCache.StartPing (emptyPingCache 60) "k" 0).2.1).map Prod.fst =
        some ⟨true, true, none⟩
    ∧ ((PingCache.recv
          (PingCache.Set (PingCache.StartPing (emptyPingCache 60) "k" 0).2.2 "k" true true 1)
          (PingCache.StartPing (emptyPingCache 60) "k" 0).2.1).bind fun q =>
            PingCache.recv q.2 (PingCache.StartPing (emptyPingCache 60) "k" 0).2.1).map
          Prod.fst =
        some ⟨false, false, none⟩
    ∧ (⟨false, false, none⟩ : PingResultT) ≠ ⟨true, true, none⟩ := by
  decide

/-! ## C5: SetError releases waiters, but only one gets the error -/

/-- C5 (code evaluated at the failing input): two waiters coalesced onto
an in-flight probe for key "k"; SetError performs one buffered send of
the error result and closes the channel, then deletes the key.  The
deletion half of the claim holds — Get misses immediately afterwards and
no entry remains — but only the first waiter receives the error; the
second receives the zero value, whose error field is nil. -/
theorem setError_single_delivery :
    alistFind
        (PingCache.SetError (PingCache.StartPing (emptyPingCache 60) "k" 0).2.2 "k"
          "probe failed").cache "k" = none
    ∧ PingCache.Get
        (PingCache.SetError (PingCache.StartPing (emptyPingCache 60) "k" 0).2.2 "k"
          "probe failed") "k" 0 = none
    ∧ (PingCache.recv
          (PingCache.SetError (PingCache.StartPing (emptyPingCache 60) "k" 0).2.2 "k"
            "probe failed")
          (PingCache.StartPing (emptyPingCache 60) "k" 0).2.1).map Prod.fst =
        some ⟨false, false, some "probe failed"⟩
    ∧ ((PingCache.recv
          (PingCache.SetError (PingCache.StartPing (emptyPingCache 60) "k" 0).2.2 "k"
            "probe failed")
          (PingCache.StartPing (emptyPingCache 60) "k" 0).2.1).bind fun q =>
            PingCache.recv q.2 (PingCache.StartPing (emptyPingCache 60) "k" 0).2.1).map
          Prod.fst =
        some ⟨false, false, none⟩
    ∧ (some "probe failed" : Option String) ≠ none := by
  decide

/-! ## C2: failed active verification of a passively resolved IP is terminal -/

/-- C2 counterexample: a host with useAsFallback=true and a static IP,
whose MAC is found in the ARP table but whose active verification fails,
ends the probe with terminal (false,false): the stale entry is flushed,
yet neither the full-subnet scan nor the static-IP fallback ping is ever
invoked, against the claim that such a probe falls through to the full
scan. -/
theorem probe_verifyFail_no_fallthrough_cex :
    let env : ProbeEnv :=
      ⟨fun _ => .ok "192.168.1.23", fun _ => (none, some "no reply"),
        .error "host not found on any interface"⟩
    let host : Host := ⟨"aa:bb:cc:dd:ee:ff", "192.168.1.50", true, ""⟩
    probeHost env host =
      ((false, false),
        [.lookupMAC, .flushARP "192.168.1.23", .lookupMAC,
         .arpPingIP "192.168.1.23", .flushARP "192.168.1.23"])
    ∧ ProbeCall.scanMAC ∉ (probeHost env host).2
    ∧ ProbeCall.arpPingIP "192.168.1.50" ∉ (probeHost env host).2
    ∧ host.useAsFallback = true := by
  decide

/-- C2 (amended): whenever static-IP direct mode is not taken, the
passive ARP-table lookup resolves an IP (both before and after the
flush), and the active verification of that IP fails, the probe flushes
the stale entry and terminates with (false,false) regardless of
useAsFallback — the full-subnet scan is never reached on this path. -/
theorem probe_verifyFail_terminal (env : ProbeEnv) (host : Host)
    (hmode : host.staticIP = "" ∨ host.useAsFallback = true)
    (ip : String) (h0 : env.getIPFromMAC 0 = .ok ip) (hip : ip ≠ "")
    (ip2 : String) (h1 : env.getIPFromMAC 1 = .ok ip2)
    (hfail : arpPingOk (env.arpPing ip2) = false) :
    (probeHost env host).1 = (false, false)
    ∧ ProbeCall.scanMAC ∉ (probeHost env host).2
    ∧ ProbeCall.flushARP ip2 ∈ (probeHost env host).2 := by
  have hstatic : ¬(host.staticIP ≠ "" ∧ ¬host.useAsFallback) := by
    rcases hmode with h | h <;> simp [h]
  simp only [probeHost, if_neg hstatic, h0, if_pos hip, h1, hfail]
  simp

/-- Witness for C2 (amended) at a concrete environment and host. -/
theorem probe_verifyFail_terminal_witness :
    (probeHost ⟨fun _ => .ok "10.0.0.2", fun _ => (none, some "timeout"), .error "not found"⟩
        ⟨"aa:bb:cc:dd:ee:ff", "", false, ""⟩).1 = (false, false)
    ∧ ProbeCall.scanMAC ∉
        (probeHost ⟨fun _ => .ok "10.0.0.2", fun _ => (none, some "timeout"), .error "not found"⟩
          ⟨"aa:bb:cc:dd:ee:ff", "", false, ""⟩).2
    ∧ ProbeCall.flushARP "10.0.0.2" ∈
        (probeHost ⟨fun _ => .ok "10.0.0.2", fun _ => (none, some "timeout"), .error "not found"⟩
          ⟨"aa:bb:cc:dd:ee:ff", "", false, ""⟩).2 :=
  probe_verifyFail_terminal _ _ (Or.inl rfl) "10.0.0.2" rfl (by decide) "10.0.0.2" rfl rfl

/-! ## C7: wake broadcast over an explicit interface list -/

theorem wakeFailureMsg_eq_none_iff (n : String) (o : IfaceOutcome) :
    wakeFailureMsg n o = none ↔ isSendOk o = true := by
  cases o <;> simp [wakeFailureMsg, isSendOk]

theorem wolLoop_eq (env : WakeEnv) (gs : List (List Char)) :
    (wolLoop env gs).1 = ((gs.map goTrimSpace).filter fun n => n ≠ []).filterMap
        (fun n => wakeFailureMsg ⟨n⟩ (env ⟨n⟩))
    ∧ (wolLoop env gs).2 = (((gs.map goTrimSpace).filter fun n => n ≠ []).filter
        fun n => isSendOk (env ⟨n⟩)).length := by
  induction gs with
  | nil => simp [wolLoop]
  | cons g rest ih =>
    by_cases hn : goTrimSpace g = []
    · simpa [wolLoop, hn] using ih
    · cases hout : env ⟨goTrimSpace g⟩ <;>
        simp [wolLoop, hn, hout, wakeFailureMsg, isSendOk, ih.1, ih.2]

/-- C7: with a non-empty interface list, SendWakeOnLanWithInterface
attempts every listed interface in order — the error list accumulates
every per-interface failure even when other interfaces succeed — and the
overall result is success exactly when at least one send succeeded;
otherwise it is the aggregate error joining every per-interface
failure. -/
theorem SendWakeOnLan_spec (env : WakeEnv) (d : Except String Unit) (s : String)
    (h1 : s ≠ "") (h2 : parsedIfaceNames s ≠ []) :
    ((SendWakeOnLanWithInterface env d s = .ok ()) ↔
      ∃ n ∈ parsedIfaceNames s, isSendOk (env ⟨n⟩) = true)
    ∧ (wolLoop env (splitGo ',' s.data)).1 =
        (parsedIfaceNames s).filterMap (fun n => wakeFailureMsg ⟨n⟩ (env ⟨n⟩))
    ∧ ((∀ n ∈ parsedIfaceNames s, isSendOk (env ⟨n⟩) = false) →
        SendWakeOnLanWithInterface env d s =
          .error ("all interfaces failed: " ++ String.intercalate "; "
            ((parsedIfaceNames s).filterMap fun n => wakeFailureMsg ⟨n⟩ (env ⟨n⟩)))) := by
  obtain ⟨he, hc⟩ := wolLoop_eq env (splitGo ',' s.data)
  have hnames : parsedIfaceNames s =
      ((splitGo ',' s.data).map goTrimSpace).filter fun n => n ≠ [] := rfl
  refine ⟨?_, by rw [he, hnames], fun hall => ?_⟩
  · unfold SendWakeOnLanWithInterface
    rw [if_neg h1]
    by_cases hpos : (wolLoop env (splitGo ',' s.data)).2 > 0
    · rw [if_pos hpos]
      simp only [true_iff]
      rw [hc] at hpos
      obtain ⟨n, hnmem⟩ := List.exists_mem_of_ne_nil _ (List.ne_nil_of_length_pos hpos)
      rw [List.mem_filter] at hnmem
      exact ⟨n, by rw [hnames]; exact hnmem.1, hnmem.2⟩
    · rw [if_neg hpos]
      constructor
      · intro habs
        by_cases herrs : (wolLoop env (splitGo ',' s.data)).1 ≠ [] <;>
          simp [herrs] at habs
      · rintro ⟨n, hmem, hok⟩
        exfalso
        apply hpos
        rw [hc]
        apply List.length_pos_of_mem (a := n)
        rw [List.mem_filter]
        exact ⟨by rw [hnames] at hmem; exact hmem, hok⟩
  · have hzero : (wolLoop env (splitGo ',' s.data)).2 = 0 := by
      rw [hc]
      rw [List.length_eq_zero, List.filter_eq_nil_iff]
      intro n hmem
      rw [← hnames] at hmem
      simp [hall n hmem]
    have herrs : (wolLoop env (splitGo ',' s.data)).1 ≠ [] := by
      rw [he, ← hnames]
      obtain ⟨n, hmem⟩ := List.exists_mem_of_ne_nil _ h2
      have hsome : (wakeFailureMsg ⟨n⟩ (env ⟨n⟩)).isSome := by
        rw [Option.isSome_iff_ne_none]
        intro hcon
        rw [wakeFailureMsg_eq_none_iff] at hcon
        exact absurd hcon (by simp [hall n hmem])
      obtain ⟨m, hm⟩ := Option.isSome_iff_exists.mp hsome
      intro hnil
      have : m ∈ (parsedIfaceNames s).filterMap fun n => wakeFailureMsg ⟨n⟩ (env ⟨n⟩) := by
        rw [List.mem_filterMap]
        exact ⟨n, hmem, hm⟩
      rw [hnil] at this
      exact absurd this (List.not_mem_nil m)
    unfold SendWakeOnLanWithInterface
    rw [if_neg h1, if_neg (by omega : ¬(wolLoop env (splitGo ',' s.data)).2 > 0),
      if_pos herrs, he, hnames]

/-- Witness for C7 at the spec's partial-failure scenario: eth0 fails to
send, eth1 succeeds, the wake reports overall success. -/
theorem SendWakeOnLan_spec_witness :
    SendWakeOnLanWithInterface
      (fun n => if n = "eth0" then .sendFail "io error" else .sendOk "192.168.1.2")
      (.error "default unused") "eth0,eth1" = .ok () :=
  ((SendWakeOnLan_spec
      (fun n => if n = "eth0" then .sendFail "io error" else .sendOk "192.168.1.2")
      (.error "default unused") "eth0,eth1" (by decide) (by decide)).1).mpr
    ⟨"eth1".data, by decide, by decide⟩

/-! ## C8: magic packet shape -/

theorem decodePairs_ok : ∀ m : List Char, (∀ c ∈ m, isHexChar c = true) → m.length % 2 = 0 →
    ∃ B, decodePairs m = some B ∧ 2 * B.length = m.length
  | [], _, _ => ⟨[], rfl, rfl⟩
  | [_], _, hl => by simp at hl
  | c0 :: c1 :: rest, h, hl => by
    have h0 := h c0 (by simp)
    have h1 := h c1 (by simp)
    rw [isHexChar] at h0 h1
    obtain ⟨d0, hd0⟩ := Option.isSome_iff_exists.mp h0
    obtain ⟨d1, hd1⟩ := Option.isSome_iff_exists.mp h1
    obtain ⟨B, hB, hBl⟩ := decodePairs_ok rest (fun c hc => h c (by simp [hc])) (by
      simp only [List.length_cons] at hl ⊢
      omega)
    refine ⟨(d0 * 16 + d1) :: B, by simp [decodePairs, hd0, hd1, hB], ?_⟩
    simp only [List.length_cons]
    omega

theorem decodePairs_none : ∀ m : List Char, (∃ c ∈ m, isHexChar c = false) →
    decodePairs m = none
  | [], h => by simp at h
  | [_], _ => rfl
  | c0 :: c1 :: rest, h => by
    obtain ⟨c, hc, hcf⟩ := h
    simp only [List.mem_cons] at hc
    rcases hc with rfl | rfl | hc
    · have hnone : hexDigitVal c = none := by
        rcases hx : hexDigitVal c with _ | d
        · rfl
        · rw [isHexChar, hx] at hcf
          simp at hcf
      cases hx1 : hexDigitVal c1 <;> cases hx2 : decodePairs rest <;>
        simp [decodePairs, hnone, hx1, hx2]
    · have hnone : hexDigitVal c = none := by
        rcases hx : hexDigitVal c with _ | d
        · rfl
        · rw [isHexChar, hx] at hcf
          simp at hcf
      cases hx0 : hexDigitVal c0 <;> cases hx2 : decodePairs rest <;>
        simp [decodePairs, hnone, hx0, hx2]
    · have hrest : decodePairs rest = none := decodePairs_none rest ⟨c, hc, hcf⟩
      cases hx0 : hexDigitVal c0 <;> cases hx1 : hexDigitVal c1 <;>
        simp [decodePairs, hrest, hx0, hx1]

/-- C8: when the input stripped of ':' and '-' is exactly 12 hex digits,
createMagicPacket returns the 102-byte packet whose first 6 bytes are
0xFF followed by 16 consecutive repetitions of the MAC's 6 decoded
bytes; otherwise it returns an error and no packet. -/
theorem createMagicPacket_spec (mac : String) :
    ((stripMacSeparators mac.data).length = 12 ∧
        (∀ c ∈ stripMacSeparators mac.data, isHexChar c = true) →
      ∃ B, decodePairs (stripMacSeparators mac.data) = some B ∧ B.length = 6 ∧
        createMagicPacket mac = .ok (List.replicate 6 255 ++ (List.replicate 16 B).flatten) ∧
        (List.replicate 6 (255 : Nat) ++ (List.replicate 16 B).flatten).length = 102 ∧
        (List.replicate 6 (255 : Nat) ++ (List.replicate 16 B).flatten).take 6 =
          List.replicate 6 255)
    ∧ (¬((stripMacSeparators mac.data).length = 12 ∧
          ∀ c ∈ stripMacSeparators mac.data, isHexChar c = true) →
        ∃ msg, createMagicPacket mac = .error msg) := by
  constructor
  · rintro ⟨hl, hh⟩
    obtain ⟨B, hB, hBl⟩ := decodePairs_ok _ hh (by rw [hl])
    have hB6 : B.length = 6 := by omega
    refine ⟨B, hB, hB6, ?_, ?_, ?_⟩
    · simp [createMagicPacket, hl, hB]
    · simp [List.length_append, List.length_flatten, List.map_replicate,
        List.sum_replicate, smul_eq_mul, hB6]
    · simp [List.take_append]
  · intro hneg
    by_cases hl : (stripMacSeparators mac.data).length = 12
    · have hex : ∃ c ∈ stripMacSeparators mac.data, isHexChar c = false := by
        rcases not_and_or.mp hneg with h | h
        · exact absurd hl h
        · push_neg at h
          obtain ⟨c, hc, hcf⟩ := h
          exact ⟨c, hc, by simpa using hcf⟩
      have hd := decodePairs_none _ hex
      exact ⟨"invalid character in MAC address", by simp [createMagicPacket, hl, hd]⟩
    · exact ⟨"invalid MAC address format", by simp [createMagicPacket, hl]⟩

/-- Witness for C8 at the spec's example MAC. -/
theorem createMagicPacket_spec_witness :
    ∃ B, decodePairs (stripMacSeparators "aa:bb:cc:dd:ee:ff".data) = some B ∧ B.length = 6 ∧
      createMagicPacket "aa:bb:cc:dd:ee:ff" =
        .ok (List.replicate 6 255 ++ (List.replicate 16 B).flatten) ∧
      (List.replicate 6 (255 : Nat) ++ (List.replicate 16 B).flatten).length = 102 ∧
      (List.replicate 6 (255 : Nat) ++ (List.replicate 16 B).flatten).take 6 =
        List.replicate 6 255 :=
  (createMagicPacket_spec "aa:bb:cc:dd:ee:ff").1 (by decide)

/-! ## C9: MAC validation and normalization behaviour -/

theorem dropWhile_head?_false {α : Type} (p : α → Bool) (l : List α) (x : α)
    (h : (List.dropWhile p l).head? = some x) : p x = false := by
  induction l with
  | nil => simp [List.dropWhile] at h
  | cons a t ih =>
    rw [List.dropWhile_cons] at h
    by_cases hp : p a
    · rw [if_pos hp] at h
      exact ih h
    · rw [if_neg hp] at h
      obtain rfl : a = x := by simpa using h
      simpa using hp

theorem dropWhile_getLast?_of_ne_nil {α : Type} (p : α → Bool) (l : List α)
    (h : List.dropWhile p l ≠ []) : (List.dropWhile p l).getLast? = l.getLast? := by
  induction l with
  | nil => exact absurd rfl h
  | cons a t ih =>
    by_cases hp : p a
    · rw [List.dropWhile_cons, if_pos hp] at h
      rw [List.dropWhile_cons, if_pos hp, ih h]
      have ht : t ≠ [] := by
        intro hc
        rw [hc] at h
        simp at h
      cases t with
      | nil => exact absurd rfl ht
      | cons b t2 => rw [List.getLast?_cons_cons]
    · rw [List.dropWhile_cons, if_neg hp]

theorem goTrimSpace_head?_false (l : List Char) (x : Char)
    (h : (goTrimSpace l).head? = some x) : goIsSpace x = false := by
  simp only [goTrimSpace] at h
  rw [List.head?_reverse] at h
  have hne : List.dropWhile goIsSpace (List.dropWhile goIsSpace l).reverse ≠ [] := by
    intro hc
    rw [hc] at h
    simp at h
  rw [dropWhile_getLast?_of_ne_nil goIsSpace _ hne, List.getLast?_reverse] at h
  exact dropWhile_head?_false goIsSpace l x h

theorem goTrimSpace_getLast?_false (l : List Char) (x : Char)
    (h : (goTrimSpace l).getLast? = some x) : goIsSpace x = false := by
  simp only [goTrimSpace] at h
  rw [List.getLast?_reverse] at h
  exact dropWhile_head?_false goIsSpace _ x h

/-- strings.TrimSpace is idempotent, so the explicit trim the host
handlers perform before sanitizeMACAddress does not change what the
(internally trimming) validator sees. -/
theorem goTrimSpace_idem (l : List Char) : goTrimSpace (goTrimSpace l) = goTrimSpace l := by
  have h1 : List.dropWhile goIsSpace (goTrimSpace l) = goTrimSpace l := by
    cases ht : goTrimSpace l with
    | nil => rfl
    | cons a t2 =>
      have ha := goTrimSpace_head?_false l a (by rw [ht]; rfl)
      rw [List.dropWhile_cons, if_neg (by simp [ha])]
  have h2 : List.dropWhile goIsSpace (goTrimSpace l).reverse = (goTrimSpace l).reverse := by
    cases ht : (goTrimSpace l).reverse with
    | nil => rfl
    | cons a t2 =>
      have ha : (goTrimSpace l).getLast? = some a := by
        rw [← List.head?_reverse, ht]
        rfl
      have hb := goTrimSpace_getLast?_false l a ha
      rw [List.dropWhile_cons, if_neg (by simp [hb])]
  show (((goTrimSpace l).dropWhile goIsSpace).reverse.dropWhile goIsSpace).reverse =
    goTrimSpace l
  rw [h1, h2, List.reverse_reverse]

theorem sanitize_trim_eq (s : String) :
    sanitizeMACAddress ⟨goTrimSpace s.data⟩ = sanitizeMACAddress s := by
  have h : (String.mk (goTrimSpace s.data)).data = goTrimSpace s.data := rfl
  simp only [sanitizeMACAddress, h, goTrimSpace_idem]

theorem normalizeMACAddress_mk (l : List Char) :
    normalizeMACAddress ⟨l⟩ =
      if (toLowerL (removeMacSeps l)).length ≠ 12 then ⟨toLowerL (removeMacSeps l)⟩
      else ⟨colonJoinPairs (toLowerL (removeMacSeps l))⟩ := rfl

/-- C9 (amended): the trim-validate-normalize pipeline fails for the
broadcast MAC, the all-zero MAC, and every input that after trimming
surrounding whitespace does not strip (removing ':', '-' and ' ') to
exactly 12 hex digits — with InvalidMAC, except inputs trimming to
empty, which fail with MissingField; every accepted input yields the
lowercase colon-separated canonical form. -/
theorem normalizeMAC_spec (s : String) :
    (goTrimSpace s.data = [] →
      normalizeMAC s = .error ⟨ErrCodeMissingField, "MAC address cannot be empty"⟩)
    ∧ (goTrimSpace s.data ≠ [] →
        ¬((removeMacSeps (goTrimSpace s.data)).length = 12 ∧
          (removeMacSeps (goTrimSpace s.data)).all isHexChar) →
        normalizeMAC s = .error ⟨ErrCodeInvalidMAC, "invalid MAC address format"⟩)
    ∧ ((removeMacSeps (goTrimSpace s.data)).length = 12 ∧
        (removeMacSeps (goTrimSpace s.data)).all isHexChar →
        toLowerL (removeMacSeps (goTrimSpace s.data)) = "ffffffffffff".data →
        normalizeMAC s = .error ⟨ErrCodeInvalidMAC, "broadcast MAC address is not allowed"⟩)
    ∧ ((removeMacSeps (goTrimSpace s.data)).length = 12 ∧
        (removeMacSeps (goTrimSpace s.data)).all isHexChar →
        removeMacSeps (goTrimSpace s.data) = "000000000000".data →
        normalizeMAC s = .error ⟨ErrCodeInvalidMAC, "all-zero MAC address is not allowed"⟩)
    ∧ ((removeMacSeps (goTrimSpace s.data)).length = 12 ∧
        (removeMacSeps (goTrimSpace s.data)).all isHexChar →
        toLowerL (removeMacSeps (goTrimSpace s.data)) ≠ "ffffffffffff".data →
        removeMacSeps (goTrimSpace s.data) ≠ "000000000000".data →
        normalizeMAC s =
          .ok ⟨colonJoinPairs (toLowerL (removeMacSeps (goTrimSpace s.data)))⟩) := by
  have hne_of_len : (removeMacSeps (goTrimSpace s.data)).length = 12 →
      goTrimSpace s.data ≠ [] := by
    intro hlen hcon
    rw [hcon] at hlen
    simp [removeMacSeps] at hlen
  refine ⟨fun h => ?_, fun h hn => ?_, fun hv hbc => ?_, fun hv hz => ?_,
    fun hv hbc hz => ?_⟩
  · simp only [normalizeMAC]
    rw [sanitize_trim_eq]
    simp only [sanitizeMACAddress]
    rw [if_pos h]
  · simp only [normalizeMAC]
    rw [sanitize_trim_eq]
    simp only [sanitizeMACAddress]
    rw [if_neg h, if_pos hn]
  · obtain ⟨hlen, hhex⟩ := hv
    simp only [normalizeMAC]
    rw [sanitize_trim_eq]
    simp only [sanitizeMACAddress]
    rw [if_neg (hne_of_len hlen), if_neg (not_not_intro ⟨hlen, hhex⟩), if_pos hbc]
  · obtain ⟨hlen, hhex⟩ := hv
    have hbc : ¬toLowerL (removeMacSeps (goTrimSpace s.data)) = "ffffffffffff".data := by
      rw [hz]
      decide
    simp only [normalizeMAC]
    rw [sanitize_trim_eq]
    simp only [sanitizeMACAddress]
    rw [if_neg (hne_of_len hlen), if_neg (not_not_intro ⟨hlen, hhex⟩), if_neg hbc, if_pos hz]
  · obtain ⟨hlen, hhex⟩ := hv
    have hmlen : (toLowerL (removeMacSeps (goTrimSpace s.data))).length = 12 := by
      simp only [toLowerL, List.length_map, hlen]
    simp only [normalizeMAC]
    rw [sanitize_trim_eq]
    simp only [sanitizeMACAddress]
    rw [if_neg (hne_of_len hlen), if_neg (not_not_intro ⟨hlen, hhex⟩), if_neg hbc, if_neg hz]
    show Except.ok (normalizeMACAddress ⟨goTrimSpace s.data⟩) =
      Except.ok ⟨colonJoinPairs (toLowerL (removeMacSeps (goTrimSpace s.data)))⟩
    rw [normalizeMACAddress_mk, if_neg (not_not_intro hmlen)]

/-- Witness for C9 (amended) at the spec's round-trip example. -/
theorem normalizeMAC_spec_witness :
    normalizeMAC "AA-BB-CC-DD-EE-FF" =
      .ok ⟨colonJoinPairs (toLowerL (removeMacSeps (goTrimSpace "AA-BB-CC-DD-EE-FF".data)))⟩ :=
  (normalizeMAC_spec "AA-BB-CC-DD-EE-FF").2.2.2.2 (by decide) (by decide) (by decide)

/-- C9 counterexample: the empty input does not strip to 12 hex digits,
so the claim requires an InvalidMAC failure; the pipeline rejects it
with a MissingField error instead. -/
theorem normalizeMAC_empty_cex :
    normalizeMAC "" = .error ⟨ErrCodeMissingField, "MAC address cannot be empty"⟩
    ∧ (removeMacSeps (goTrimSpace "".data)).length ≠ 12
    ∧ ErrCodeMissingField ≠ ErrCodeInvalidMAC := by
  decide
